import Mathlib

/-!
Shallow embedding of the auth web service (UserDatabase.js + Server.js).

Modelling conventions:
* A Mongo document is an association list of string fields (`Doc`); the
  collection is a `List Doc`.  `find {_id: id}` filters on the `_id` field.
* JavaScript object assignment (`data._id = id`) and `delete data._pw` are
  `setField` / `deleteField` on the association list (only field lookup and
  membership are observed, never field order).
* Promise rejection is `Except.error` carrying the `Error` message string;
  a resolved value is `Except.ok`.
* bcrypt is an external library: `bcryptHash` is modelled as an injective
  tagged string, and `bcrypt.compare p h` succeeds exactly when `h` is the
  hash of `p`.
* A JWT is an opaque signed string; we model the token strings concretely as
  `List Char` produced by `jwtSignL` (payload, iat, exp, and a trailing
  signature segment determined by the signing secret).  `jwtVerifyL` parses a
  candidate string and checks signature and expiry; any string that does not
  parse is a malformed token and fails verification, mirroring a thrown
  verification error that `checkAuthToken` catches.
* Time is injected explicitly: `now` is the clock (in seconds) at the moment
  a handler runs / a token is minted.
-/

/-- A Mongo document: an association list from field names to (string) values. -/
abbrev Doc := List (String × String)

/-- Field lookup on a document (JS property read: `doc[k]`, `undefined` = `none`). -/
def lookupField : Doc → String → Option String
  | [], _ => none
  | p :: d, k => if p.1 = k then some p.2 else lookupField d k

/-- JS `delete doc[k]`: removes the binding for `k` (documents bind each key
at most once). -/
def deleteField : Doc → String → Doc
  | [], _ => []
  | p :: d, k => if p.1 = k then deleteField d k else p :: deleteField d k

/-- JS property assignment `doc[k] = v` (overwrites any existing `k`). -/
def setField (d : Doc) (k v : String) : Doc :=
  (k, v) :: deleteField d k

/-- `this.users.find({_id: id}).toArray()`: all documents whose `_id` field is `id`. -/
def findById : List Doc → String → List Doc
  | [], _ => []
  | d :: s, id =>
    if lookupField d "_id" = some id then d :: findById s id else findById s id

/-- Model of `bcrypt.hash(password, 10)`: an injective one-way tag of the
plaintext (the bcrypt library is external to the repository). -/
def bcryptHash (password : String) : String :=
  "bcrypt-2b-10-" ++ password

/-- Model of `bcrypt.compare(password, hash)`: succeeds exactly when `hash`
was produced by hashing `password`. -/
def bcryptCompare (password hash : String) : Bool :=
  hash == bcryptHash password

/-- Resolution values of `UserDatabase.createUser`: `"already exists"` or `true`. -/
inductive CreateResult
  | created
  | alreadyExists
deriving DecidableEq, Repr

/-- Resolution values of `UserDatabase.checkPassword`: `true`, `false`, or `"not found"`. -/
inductive CheckResult
  | valid
  | invalid
  | notFound
deriving DecidableEq, Repr

/-- Resolution values of `UserDatabase.getUser`: a document or `"not found"`. -/
inductive GetResult
  | found (d : Doc)
  | notFound
deriving DecidableEq, Repr

namespace UserDatabase

/-- UserDatabase.createUser(id, password, data).  The JS parameter guard
`!id || typeof id !== "string" || !password || ... || !data` reduces, for
string arguments and an object `data`, to the emptiness checks (a present JS
object, even `{}`, is truthy).  `insertOne` in the model always inserts
exactly one document, so the `insertedCount !== 1` rejection branch is not
reachable.  Returns the result together with the updated collection. -/
def createUser (store : List Doc) (id password : String) (data : Doc) :
    Except String (CreateResult × List Doc) :=
  if id = "" || password = "" then
    .error "Invalid parameters"
  else
    match findById store id with
    | [_] => .ok (.alreadyExists, store)
    | [] =>
      let doc := setField (setField data "_id" id) "_pw" (bcryptHash password)
      .ok (.created, store ++ [doc])
    | _ => .error ("Multiple docs found for user with id " ++ id)

/-- UserDatabase.checkPassword(id, password).  When the single matching
document lacks a `_pw` field, `bcrypt.compare(password, undefined)` rejects;
that rejection is the `.error` branch. -/
def checkPassword (store : List Doc) (id password : String) :
    Except String CheckResult :=
  if id = "" || password = "" then
    .error "Invalid parameters"
  else
    match findById store id with
    | [doc] =>
      match lookupField doc "_pw" with
      | some hashedPassword =>
        if bcryptCompare password hashedPassword then .ok .valid else .ok .invalid
      | none => .error "data and hash arguments required"
    | [] => .ok .notFound
    | _ => .error ("Multiple docs found for user with id " ++ id)

/-- UserDatabase.getUser(id): strips `_id` and `_pw` from the found document. -/
def getUser (store : List Doc) (id : String) : Except String GetResult :=
  if id = "" then
    .error "Invalid parameters"
  else
    match findById store id with
    | [doc] => .ok (.found (deleteField (deleteField doc "_id") "_pw"))
    | [] => .ok .notFound
    | _ => .error ("Multiple docs found for user with id " ++ id)

end UserDatabase

/- Basic lemmas about the document/store model. -/

theorem lookupField_deleteField_ne (d : Doc) (k k' : String) (h : k' ≠ k) :
    lookupField (deleteField d k) k' = lookupField d k' := by
  induction d with
  | nil => rfl
  | cons p t ih =>
    by_cases hp : p.1 = k
    · have hpk : p.1 ≠ k' := fun e => h (e ▸ hp ▸ rfl)
      simp only [deleteField, if_pos hp, lookupField, if_neg hpk, ih]
    · by_cases hpk : p.1 = k'
      · simp only [deleteField, if_neg hp, lookupField, if_pos hpk]
      · simp only [deleteField, if_neg hp, lookupField, if_neg hpk, ih]

theorem lookupField_setField_self (d : Doc) (k v : String) :
    lookupField (setField d k v) k = some v := by
  simp [lookupField, setField]

theorem lookupField_setField_ne (d : Doc) (k v k' : String) (h : k' ≠ k) :
    lookupField (setField d k v) k' = lookupField d k' := by
  have hne : ¬((k, v).1 = k') := fun e => h e.symm
  simp only [setField, lookupField, if_neg hne]
  exact lookupField_deleteField_ne d k k' h

theorem findById_append (s t : List Doc) (id : String) :
    findById (s ++ t) id = findById s id ++ findById t id := by
  induction s with
  | nil => rfl
  | cons d s ih =>
    by_cases hd : lookupField d "_id" = some id
    · simp only [List.cons_append, findById, if_pos hd, List.append_eq, ih]
    · simp only [List.cons_append, findById, if_neg hd, List.append_eq, ih]

theorem findById_singleton_new (data : Doc) (id pw : String) :
    findById [setField (setField data "_id" id) "_pw" (bcryptHash pw)] id =
      [setField (setField data "_id" id) "_pw" (bcryptHash pw)] := by
  have h : lookupField (setField (setField data "_id" id) "_pw" (bcryptHash pw)) "_id"
      = some id := by
    rw [lookupField_setField_ne _ _ _ _ (by decide)]
    exact lookupField_setField_self _ _ _
  simp [findById, h]

theorem bcryptHash_injective : Function.Injective bcryptHash := by
  intro a b hab
  have h2 : ("bcrypt-2b-10-" ++ a).data = ("bcrypt-2b-10-" ++ b).data :=
    congrArg String.data hab
  simp only [String.data_append] at h2
  exact String.ext (List.append_cancel_left h2)

theorem bcryptCompare_hash_self (p : String) : bcryptCompare p (bcryptHash p) = true := by
  simp [bcryptCompare]

theorem bcryptCompare_hash_ne (p q : String) (h : p ≠ q) :
    bcryptCompare p (bcryptHash q) = false := by
  simp only [bcryptCompare, beq_eq_false_iff_ne, ne_eq]
  intro hc
  exact h (bcryptHash_injective hc).symm

/-- C1: for any valid id/password/profile with no record for the id in the
store, `createUser` succeeds with `created` and `checkPassword` on the
resulting store accepts the same plaintext password. -/
theorem creation_verifies_password (store : List Doc) (id pw : String) (data : Doc)
    (hid : id ≠ "") (hpw : pw ≠ "") (hfresh : findById store id = []) :
    ∃ store', UserDatabase.createUser store id pw data = .ok (.created, store') ∧
      UserDatabase.checkPassword store' id pw = .ok .valid := by
  refine ⟨store ++ [setField (setField data "_id" id) "_pw" (bcryptHash pw)], ?_, ?_⟩
  · simp [UserDatabase.createUser, hid, hpw, hfresh]
  · have hf : findById (store ++ [setField (setField data "_id" id) "_pw" (bcryptHash pw)]) id
        = [setField (setField data "_id" id) "_pw" (bcryptHash pw)] := by
      rw [findById_append, hfresh, findById_singleton_new]
      rfl
    simp [UserDatabase.checkPassword, hid, hpw, hf,
      lookupField_setField_self, bcryptCompare_hash_self]

theorem creation_verifies_password_witness :
    ∃ store', UserDatabase.createUser [] "alice" "secret" [("age", "30")]
        = .ok (.created, store') ∧
      UserDatabase.checkPassword store' "alice" "secret" = .ok .valid :=
  creation_verifies_password [] "alice" "secret" [("age", "30")]
    (by decide) (by decide) rfl

/-!
Model of the jsonwebtoken library.  A signed token is an opaque string over
the alphabet `{x, ., ;}` (in particular: no space, so a token survives the
`Authorization` header's split on spaces, exactly as base64url-encoded JWTs
do).  The payload (the `{id}` object), the `iat` and `exp` claims, and a
signature segment determined by the signing secret are all embedded in the
string.  `jwtVerifyL` parses a candidate string, checks the signature
segment against the expected secret, and checks expiry (`exp`) and
`maxAge`; a string that does not parse, a wrong signature, or an expired
token all make verification fail (in the library: a thrown error).
-/

/-- Unary encoding of a natural number, terminated by a dot. -/
def natEnc (n : Nat) : List Char :=
  List.replicate n 'x' ++ ['.']

/-- Encoding of a character string as a sequence of unary character codes,
terminated by a semicolon. -/
def strEnc : List Char → List Char
  | [] => [';']
  | c :: cs => natEnc c.toNat ++ strEnc cs

/-- Parse one unary-encoded natural number. -/
def natDec : List Char → Option (Nat × List Char)
  | 'x' :: rest => (natDec rest).map (fun p => (p.1 + 1, p.2))
  | '.' :: rest => some (0, rest)
  | _ => none

/-- Skip over one encoded string segment (the payload is parsed but its
content is not needed by the verifier). -/
def skipPayload : List Char → Option (List Char)
  | ';' :: rest => some rest
  | 'x' :: rest => skipPayload rest
  | '.' :: rest => skipPayload rest
  | _ => none

/-- Model of `jwt.sign({id}, secret, {expiresIn})` with `iat` the signing
time and `expiry = iat + expiresIn`. -/
def jwtSignL (payload secret : List Char) (iat expiry : Nat) : List Char :=
  strEnc payload ++ (natEnc iat ++ (natEnc expiry ++ strEnc secret))

/-- Model of `jwt.verify(tok, secret, {maxAge})` at clock time `now`,
with every thrown verification error mapped to `false`. -/
def jwtVerifyL (tok secret : List Char) (maxAge now : Nat) : Bool :=
  match skipPayload tok with
  | none => false
  | some r1 =>
    match natDec r1 with
    | none => false
    | some (iat, r2) =>
      match natDec r2 with
      | none => false
      | some (expiry, sig) =>
        decide (sig = strEnc secret) && decide (now < expiry) &&
          decide (now < iat + maxAge)

theorem natDec_natEnc (n : Nat) (r : List Char) :
    natDec (natEnc n ++ r) = some (n, r) := by
  induction n with
  | zero => rfl
  | succ n ih =>
    have : natEnc (n + 1) ++ r = 'x' :: (natEnc n ++ r) := by
      simp [natEnc, List.replicate_succ]
    rw [this, natDec, ih]
    rfl

theorem skipPayload_natEnc (n : Nat) (l : List Char) :
    skipPayload (natEnc n ++ l) = skipPayload l := by
  induction n with
  | zero => rfl
  | succ n ih =>
    have : natEnc (n + 1) ++ l = 'x' :: (natEnc n ++ l) := by
      simp [natEnc, List.replicate_succ]
    rw [this, skipPayload, ih]

theorem skipPayload_strEnc (p r : List Char) :
    skipPayload (strEnc p ++ r) = some r := by
  induction p with
  | nil => rfl
  | cons c cs ih =>
    have : strEnc (c :: cs) ++ r = natEnc c.toNat ++ (strEnc cs ++ r) := by
      simp [strEnc]
    rw [this, skipPayload_natEnc, ih]

theorem jwtVerifyL_jwtSignL (p s s' : List Char) (iat expiry maxAge now : Nat) :
    jwtVerifyL (jwtSignL p s iat expiry) s' maxAge now =
      (decide (strEnc s = strEnc s') && decide (now < expiry) &&
        decide (now < iat + maxAge)) := by
  simp only [jwtVerifyL, jwtSignL, skipPayload_strEnc, natDec_natEnc]

theorem charToNat_injective : Function.Injective Char.toNat := by
  intro a b hab
  have := congrArg Char.ofNat hab
  rwa [Char.ofNat_toNat, Char.ofNat_toNat] at this

theorem strEnc_injective : Function.Injective strEnc := by
  intro l1
  induction l1 with
  | nil =>
    intro l2 h
    cases l2 with
    | nil => rfl
    | cons d ds =>
      have h2 := congrArg natDec h
      rw [show strEnc (d :: ds) = natEnc d.toNat ++ strEnc ds from rfl,
        natDec_natEnc] at h2
      simp [strEnc, natDec] at h2
  | cons c cs ih =>
    intro l2 h
    cases l2 with
    | nil =>
      have h2 := congrArg natDec h
      rw [show strEnc (c :: cs) = natEnc c.toNat ++ strEnc cs from rfl,
        natDec_natEnc] at h2
      simp [strEnc, natDec] at h2
    | cons d ds =>
      have h2 := congrArg natDec h
      rw [show strEnc (c :: cs) = natEnc c.toNat ++ strEnc cs from rfl,
        show strEnc (d :: ds) = natEnc d.toNat ++ strEnc ds from rfl,
        natDec_natEnc, natDec_natEnc] at h2
      simp only [Option.some.injEq, Prod.mk.injEq] at h2
      obtain ⟨hcd, htl⟩ := h2
      rw [charToNat_injective hcd, ih htl]

theorem strEnc_chars (p : List Char) :
    ∀ c ∈ strEnc p, c = 'x' ∨ c = '.' ∨ c = ';' := by
  induction p with
  | nil =>
    intro c hc
    simp [strEnc] at hc
    simp [hc]
  | cons a as ih =>
    intro c hc
    simp only [strEnc, natEnc, List.append_assoc, List.mem_append,
      List.mem_replicate, List.mem_singleton] at hc
    rcases hc with ⟨_, h⟩ | h | h
    · exact Or.inl h
    · exact Or.inr (Or.inl h)
    · exact ih c h

theorem natEnc_chars (n : Nat) :
    ∀ c ∈ natEnc n, c = 'x' ∨ c = '.' ∨ c = ';' := by
  intro c hc
  simp only [natEnc, List.mem_append, List.mem_replicate, List.mem_singleton] at hc
  rcases hc with ⟨_, h⟩ | h
  · exact Or.inl h
  · exact Or.inr (Or.inl h)

theorem jwtSignL_chars (p s : List Char) (iat expiry : Nat) :
    ∀ c ∈ jwtSignL p s iat expiry, c = 'x' ∨ c = '.' ∨ c = ';' := by
  intro c hc
  simp only [jwtSignL, List.mem_append] at hc
  rcases hc with h | h | h | h
  · exact strEnc_chars p c h
  · exact natEnc_chars iat c h
  · exact natEnc_chars expiry c h
  · exact strEnc_chars s c h

theorem space_not_mem_jwtSignL (p s : List Char) (iat expiry : Nat) :
    ' ' ∉ jwtSignL p s iat expiry := by
  intro h
  rcases jwtSignL_chars p s iat expiry ' ' h with h1 | h1 | h1 <;> exact absurd h1 (by decide)

theorem jwtSignL_ne_nil (p s : List Char) (iat expiry : Nat) :
    jwtSignL p s iat expiry ≠ [] := by
  intro h
  have h2 := skipPayload_strEnc p (natEnc iat ++ (natEnc expiry ++ strEnc s))
  rw [← jwtSignL, h] at h2
  simp [skipPayload] at h2

/-!
JavaScript string utilities used by the request handlers.
-/

/-- JS `str.split(sep)` for a one-character separator (adjacent separators
produce empty words; the result is never empty). -/
def splitChar (sep : Char) : List Char → List (List Char)
  | [] => [[]]
  | c :: cs =>
    if c = sep then [] :: splitChar sep cs
    else
      match splitChar sep cs with
      | [] => [[c]]
      | w :: ws => (c :: w) :: ws

/-- JS `str.toLowerCase()`. -/
def toLowerL (l : List Char) : List Char :=
  l.map Char.toLower

theorem splitChar_ne_nil (sep : Char) (l : List Char) : splitChar sep l ≠ [] := by
  induction l with
  | nil => simp [splitChar]
  | cons c cs ih =>
    by_cases hc : c = sep
    · simp [splitChar, hc]
    · rw [splitChar, if_neg hc]
      cases hs : splitChar sep cs with
      | nil => simp
      | cons w ws => simp

theorem splitChar_no_sep (sep : Char) (l : List Char) (h : sep ∉ l) :
    splitChar sep l = [l] := by
  induction l with
  | nil => rfl
  | cons c cs ih =>
    have hc : ¬(c = sep) := fun e => h (e ▸ List.mem_cons_self c cs)
    have hcs : sep ∉ cs := fun e => h (List.mem_cons_of_mem c e)
    rw [splitChar, if_neg hc, ih hcs]

theorem splitChar_word (sep : Char) (w r : List Char) (hw : sep ∉ w) :
    splitChar sep (w ++ sep :: r) = w :: splitChar sep r := by
  induction w with
  | nil => simp [splitChar]
  | cons c cs ih =>
    have hc : ¬(c = sep) := fun e => hw (e ▸ List.mem_cons_self c cs)
    have hcs : sep ∉ cs := fun e => hw (List.mem_cons_of_mem c e)
    rw [List.cons_append, splitChar, if_neg hc, ih hcs]

/-!
The Server component (Server.js).  Express-level inputs are modelled after
decoding: `paramsId` is `req.params.id` (always a string on a matched
route), `queryPw` is `req.query.pw` (`none` when the query parameter is
absent), `reqBody` is `req.body` (`none` models a null/undefined body; the
body-parser middleware in the deployed pipeline supplies `{}`, i.e.
`some []`, when no JSON body is sent), and `authHeader` is the
`authorization` header (`none` when absent).  `decodeURIComponent` applied
to a present value is modelled as the identity (inputs stand for the decoded
strings); applied to the absent `req.query.pw` it is JS string coercion of
`undefined`, i.e. the literal string `"undefined"`, which is truthy.
-/

/-- Response body shapes the handlers send. -/
inductive RespBody
  | statusInfo (status info : String)
  | createdToken (authToken : List Char)
  | okToken (authToken : List Char)
  | jsonDoc (d : Doc)
deriving DecidableEq, Repr

/-- An HTTP response: status code plus body. -/
structure Response where
  status : Nat
  body : RespBody
deriving DecidableEq, Repr

def internalErrorResp : Response :=
  ⟨500, .statusInfo "ERROR_INTERNAL_SERVER_ERROR" "server encountered unexpected error"⟩

/-- The shared signing secret (`authSecret` in Server.js). -/
def authSecret : String := "superSecretString"

namespace Server

/-- Server.createAuthToken(id): `jwt.sign({id}, authSecret, {expiresIn: authTimeout})`
at clock time `now` (so `iat = now` and `exp = now + authTimeout`). -/
def createAuthToken (authTimeout now : Nat) (id : String) : List Char :=
  jwtSignL id.toList authSecret.toList now (now + authTimeout)

/-- Server.checkAuthToken(authToken): `jwt.verify(authToken, authSecret,
{maxAge: authTimeout})` at clock time `now`; every thrown verification
error is caught and mapped to `false`. -/
def checkAuthToken (authTimeout now : Nat) (authToken : List Char) : Bool :=
  jwtVerifyL authToken authSecret.toList authTimeout now

/-- Server.createUser request handler (PUT /users/:id).  Returns the
response together with the user collection after the request (the `.catch`
branch maps any store rejection to a 500 response and performs no write).
The `Location` header set on the 201/303 paths carries no claim-relevant
information and is not modelled. -/
def createUser (authTimeout now : Nat) (store : List Doc) (paramsId : String)
    (queryPw : Option String) (reqBody : Option Doc) : Response × List Doc :=
  let id := paramsId
  -- decodeURIComponent(req.query.pw): JS coerces undefined to "undefined"
  let password := match queryPw with
    | some v => v
    | none => "undefined"
  if id = "" || password = "" || reqBody.isNone then
    (⟨400, .statusInfo "ERROR_BAD_REQUEST" "ID, password, or body is invalid"⟩, store)
  else
    match UserDatabase.createUser store id password (reqBody.getD []) with
    | .ok (.alreadyExists, st) =>
      (⟨303, .statusInfo "EXISTS" ("user " ++ id ++ " already exists")⟩, st)
    | .ok (.created, st) =>
      (⟨201, .createdToken (createAuthToken authTimeout now id)⟩, st)
    | .error _ => (internalErrorResp, store)

/-- Server.logIn request handler (PUT /users/:id/auth).  `!body.pw` is true
when the `pw` field is absent or is the empty string. -/
def logIn (authTimeout now : Nat) (store : List Doc) (paramsId : String)
    (reqBody : Option Doc) : Response :=
  let id := paramsId
  if id = "" || reqBody.isNone then
    ⟨400, .statusInfo "ERROR_BAD_REQUEST" "ID or body is invalid"⟩
  else
    let pw := (lookupField (reqBody.getD []) "pw").getD ""
    if pw = "" then
      ⟨401, .statusInfo "ERROR_UNAUTHORIZED"
        ("/users/" ++ id ++ "/auth requires a valid pw password query parameter")⟩
    else
      match UserDatabase.checkPassword store id pw with
      | .ok .notFound =>
        ⟨404, .statusInfo "ERROR_NOT_FOUND" ("user " ++ id ++ " not found")⟩
      | .ok .invalid =>
        ⟨401, .statusInfo "ERROR_UNAUTHORIZED"
          ("/users/" ++ id ++ "/auth requires a valid pw password query parameter")⟩
      | .ok .valid =>
        ⟨200, .okToken (createAuthToken authTimeout now id)⟩
      | .error _ => internalErrorResp

/-- Continuation of Server.getUser after the Authorization header has been
parsed: `this.checkAuthToken(authToken)` guards the store lookup
(Server.js lines 189-215). -/
def getUserAfterAuth (authTimeout now : Nat) (store : List Doc) (id : String)
    (authToken : List Char) : Response :=
  if checkAuthToken authTimeout now authToken then
    match UserDatabase.getUser store id with
    | .ok .notFound =>
      ⟨404, .statusInfo "ERROR_NOT_FOUND" ("user " ++ id ++ " not found")⟩
    | .ok (.found d) => ⟨200, .jsonDoc d⟩
    | .error _ => internalErrorResp
  else
    ⟨401, .statusInfo "ERROR_UNAUTHORIZED"
      ("/users/" ++ id ++ " requires a bearer authorization header")⟩

/-- Server.getUser request handler (GET /users/:id).  The guard mirrors
`!authValue || authValueSplit[0].toLowerCase() !== "bearer" ||
!authValueSplit[1]` (an absent header and an empty header string are both
falsy; a missing or empty second split component is falsy). -/
def getUser (authTimeout now : Nat) (store : List Doc) (paramsId : String)
    (authHeader : Option (List Char)) : Response :=
  let id := paramsId
  if id = "" then
    ⟨400, .statusInfo "ERROR_BAD_REQUEST" "ID is invalid"⟩
  else
    match authHeader with
    | none =>
      ⟨401, .statusInfo "ERROR_UNAUTHORIZED"
        ("/users/" ++ id ++ " requires a bearer authorization header")⟩
    | some authValue =>
      if authValue = [] then
        ⟨401, .statusInfo "ERROR_UNAUTHORIZED"
          ("/users/" ++ id ++ " requires a bearer authorization header")⟩
      else
        let authValueSplit := splitChar ' ' authValue
        if toLowerL (authValueSplit.getD 0 []) ≠ "bearer".toList ∨
            authValueSplit.getD 1 [] = [] then
          ⟨401, .statusInfo "ERROR_UNAUTHORIZED"
            ("/users/" ++ id ++ " requires a bearer authorization header")⟩
        else
          getUserAfterAuth authTimeout now store id (authValueSplit.getD 1 [])

end Server

/- Shared lemmas about minted tokens and the Authorization header plumbing. -/

theorem checkAuthToken_minted (authTimeout iat now : Nat) (a : String)
    (hfresh : now < iat + authTimeout) :
    Server.checkAuthToken authTimeout now (Server.createAuthToken authTimeout iat a)
      = true := by
  rw [Server.checkAuthToken, Server.createAuthToken, jwtVerifyL_jwtSignL]
  simp [hfresh]

theorem bearerHeader_form (tok : List Char) :
    "Bearer ".toList ++ tok = "Bearer".toList ++ (' ' :: tok) := rfl

theorem getUser_bearer_minted (authTimeout iat now : Nat) (a id : String)
    (store : List Doc) (hid : id ≠ "") :
    Server.getUser authTimeout now store id
        (some ("Bearer ".toList ++ Server.createAuthToken authTimeout iat a)) =
      Server.getUserAfterAuth authTimeout now store id
        (Server.createAuthToken authTimeout iat a) := by
  have hsp : ' ' ∉ Server.createAuthToken authTimeout iat a :=
    space_not_mem_jwtSignL _ _ _ _
  have hne : Server.createAuthToken authTimeout iat a ≠ [] :=
    jwtSignL_ne_nil _ _ _ _
  have h1 : splitChar ' ' ("Bearer ".toList ++ Server.createAuthToken authTimeout iat a)
      = ["Bearer".toList, Server.createAuthToken authTimeout iat a] := by
    rw [bearerHeader_form, splitChar_word ' ' _ _ (by decide),
      splitChar_no_sep ' ' _ hsp]
  have h3 : "Bearer ".toList ++ Server.createAuthToken authTimeout iat a ≠ [] := by
    rw [bearerHeader_form]
    simp
  rw [Server.getUser]
  simp only [if_neg hid, if_neg h3, h1]
  have g0 : (["Bearer".toList, Server.createAuthToken authTimeout iat a]).getD 0 []
      = "Bearer".toList := rfl
  have g1 : (["Bearer".toList, Server.createAuthToken authTimeout iat a]).getD 1 []
      = Server.createAuthToken authTimeout iat a := rfl
  have hcond : ¬(toLowerL (["Bearer".toList,
      Server.createAuthToken authTimeout iat a].getD 0 []) ≠ "bearer".toList ∨
      ["Bearer".toList, Server.createAuthToken authTimeout iat a].getD 1 [] = []) := by
    rw [g0, g1]
    simp only [not_or]
    exact ⟨fun h => h (by decide), hne⟩
  simp only [if_neg hcond]
  rfl

/-- C6: a token minted by createAuthToken verifies under checkAuthToken while
fewer than authTimeout seconds have elapsed since issuance, and fails
verification once more than authTimeout seconds have elapsed. -/
theorem token_ttl_window (authTimeout iat now : Nat) (id : String) :
    (now < iat + authTimeout →
      Server.checkAuthToken authTimeout now
        (Server.createAuthToken authTimeout iat id) = true) ∧
    (iat + authTimeout < now →
      Server.checkAuthToken authTimeout now
        (Server.createAuthToken authTimeout iat id) = false) := by
  constructor
  · intro h
    exact checkAuthToken_minted authTimeout iat now id h
  · intro h
    rw [Server.checkAuthToken, Server.createAuthToken, jwtVerifyL_jwtSignL]
    have h2 : ¬(now < iat + authTimeout) := by omega
    simp [h2]

theorem token_ttl_window_witness :
    Server.checkAuthToken 10 5 (Server.createAuthToken 10 0 "alice") = true ∧
    Server.checkAuthToken 10 11 (Server.createAuthToken 10 0 "alice") = false :=
  ⟨(token_ttl_window 10 0 5 "alice").1 (by decide),
   (token_ttl_window 10 0 11 "alice").2 (by decide)⟩

/-- C10: the Bearer-scheme check lowercases the scheme before comparing, so a
header `scheme ++ " " ++ token` with any casing of "bearer" is not rejected
at the scheme check and the request outcome is that of token verification. -/
theorem bearer_scheme_case_insensitive (authTimeout now : Nat) (store : List Doc)
    (id : String) (scheme tok : List Char) (hid : id ≠ "")
    (hscheme : toLowerL scheme = "bearer".toList) (hs1 : ' ' ∉ scheme)
    (hs2 : ' ' ∉ tok) (htok : tok ≠ []) :
    Server.getUser authTimeout now store id (some (scheme ++ ' ' :: tok)) =
      Server.getUserAfterAuth authTimeout now store id tok := by
  have hschne : scheme ≠ [] := by
    intro h
    rw [h] at hscheme
    simp [toLowerL] at hscheme
  have h1 : splitChar ' ' (scheme ++ ' ' :: tok) = [scheme, tok] := by
    rw [splitChar_word ' ' _ _ hs1, splitChar_no_sep ' ' _ hs2]
  have h3 : scheme ++ ' ' :: tok ≠ [] := by simp
  rw [Server.getUser]
  simp only [if_neg hid, if_neg h3, h1]
  have g0 : ([scheme, tok]).getD 0 [] = scheme := rfl
  have g1 : ([scheme, tok]).getD 1 [] = tok := rfl
  have hcond : ¬(toLowerL ([scheme, tok].getD 0 []) ≠ "bearer".toList ∨
      [scheme, tok].getD 1 [] = []) := by
    rw [g0, g1]
    simp only [not_or]
    exact ⟨fun h => h hscheme, htok⟩
  simp only [if_neg hcond]
  rfl

theorem bearer_scheme_case_insensitive_witness :
    Server.getUser 10 0 [] "a" (some ("BEARER".toList ++ ' ' :: ['g'])) =
      Server.getUserAfterAuth 10 0 [] "a" ['g'] :=
  bearer_scheme_case_insensitive 10 0 [] "a" "BEARER".toList ['g']
    (by decide) (by decide) (by decide) (by decide) (by decide)

/-- C2: a token minted for any id `a` grants, within the TTL, access to the
profile of any other id `b` that has a record: the token's embedded subject
is never compared against the requested path id. -/
theorem token_grants_cross_account_read (authTimeout iat now : Nat) (a b : String)
    (store : List Doc) (d : Doc) (hb : b ≠ "")
    (hfind : findById store b = [d]) (hfresh : now < iat + authTimeout) :
    Server.getUser authTimeout now store b
        (some ("Bearer ".toList ++ Server.createAuthToken authTimeout iat a)) =
      ⟨200, .jsonDoc (deleteField (deleteField d "_id") "_pw")⟩ := by
  rw [getUser_bearer_minted authTimeout iat now a b store hb,
    Server.getUserAfterAuth, if_pos (checkAuthToken_minted authTimeout iat now a hfresh)]
  rw [UserDatabase.getUser, if_neg hb, hfind]

theorem token_grants_cross_account_read_witness :
    Server.getUser 10 5 [[("_id", "bob"), ("_pw", "h"), ("age", "30")]] "bob"
        (some ("Bearer ".toList ++ Server.createAuthToken 10 0 "alice")) =
      ⟨200, .jsonDoc (deleteField (deleteField
        [("_id", "bob"), ("_pw", "h"), ("age", "30")] "_id") "_pw")⟩ :=
  token_grants_cross_account_read 10 0 5 "alice" "bob"
    [[("_id", "bob"), ("_pw", "h"), ("age", "30")]]
    [("_id", "bob"), ("_pw", "h"), ("age", "30")]
    (by decide) (by decide) (by decide)

theorem mem_deleteField {kv : String × String} {d : Doc} {k : String}
    (h : kv ∈ deleteField d k) : kv.1 ≠ k ∧ kv ∈ d := by
  induction d with
  | nil => simp [deleteField] at h
  | cons p t ih =>
    by_cases hp : p.1 = k
    · rw [deleteField, if_pos hp] at h
      obtain ⟨h1, h2⟩ := ih h
      exact ⟨h1, List.mem_cons_of_mem p h2⟩
    · rw [deleteField, if_neg hp] at h
      rcases List.mem_cons.1 h with he | ht
      · subst he
        exact ⟨hp, List.mem_cons_self _ _⟩
      · obtain ⟨h1, h2⟩ := ih ht
        exact ⟨h1, List.mem_cons_of_mem p h2⟩

/-- C4: for a stored record, getUser returns it with the internal `_id` key
and the `_pw` password-hash key removed, every other field intact, and no
`_id`/`_pw` field ever appears in the result. -/
theorem getUser_strips_reserved_fields (store : List Doc) (id : String) (d : Doc)
    (hid : id ≠ "") (hfind : findById store id = [d]) :
    UserDatabase.getUser store id =
      .ok (.found (deleteField (deleteField d "_id") "_pw")) ∧
    (∀ k, k ≠ "_id" → k ≠ "_pw" →
      lookupField (deleteField (deleteField d "_id") "_pw") k = lookupField d k) ∧
    (∀ kv ∈ deleteField (deleteField d "_id") "_pw", kv.1 ≠ "_id" ∧ kv.1 ≠ "_pw") := by
  refine ⟨?_, ?_, ?_⟩
  · simp [UserDatabase.getUser, hid, hfind]
  · intro k h1 h2
    rw [lookupField_deleteField_ne _ _ _ h2, lookupField_deleteField_ne _ _ _ h1]
  · intro kv hkv
    have h1 := mem_deleteField hkv
    have h2 := mem_deleteField h1.2
    exact ⟨h2.1, h1.1⟩

theorem getUser_strips_reserved_fields_witness :
    UserDatabase.getUser [[("_id", "bob"), ("_pw", "h"), ("age", "30")]] "bob" =
      .ok (.found (deleteField (deleteField
        [("_id", "bob"), ("_pw", "h"), ("age", "30")] "_id") "_pw")) ∧
    (∀ k, k ≠ "_id" → k ≠ "_pw" →
      lookupField (deleteField (deleteField
        [("_id", "bob"), ("_pw", "h"), ("age", "30")] "_id") "_pw") k =
        lookupField [("_id", "bob"), ("_pw", "h"), ("age", "30")] k) ∧
    (∀ kv ∈ deleteField (deleteField
        [("_id", "bob"), ("_pw", "h"), ("age", "30")] "_id") "_pw",
      kv.1 ≠ "_id" ∧ kv.1 ≠ "_pw") :=
  getUser_strips_reserved_fields [[("_id", "bob"), ("_pw", "h"), ("age", "30")]]
    "bob" [("_id", "bob"), ("_pw", "h"), ("age", "30")] (by decide) (by decide)

/-- C5: creating the same id twice yields Created then AlreadyExists, the
second call returns the store unchanged, and the stored hash still verifies
the first password and rejects a different second password. -/
theorem duplicate_create_preserves_first_password (store : List Doc)
    (id p1 p2 : String) (d1 d2 : Doc) (hid : id ≠ "") (hp1 : p1 ≠ "")
    (hp2 : p2 ≠ "") (hfresh : findById store id = []) :
    ∃ store', UserDatabase.createUser store id p1 d1 = .ok (.created, store') ∧
      UserDatabase.createUser store' id p2 d2 = .ok (.alreadyExists, store') ∧
      UserDatabase.checkPassword store' id p1 = .ok .valid ∧
      (p2 ≠ p1 → UserDatabase.checkPassword store' id p2 = .ok .invalid) := by
  have hf : findById (store ++ [setField (setField d1 "_id" id) "_pw" (bcryptHash p1)]) id
      = [setField (setField d1 "_id" id) "_pw" (bcryptHash p1)] := by
    rw [findById_append, hfresh, findById_singleton_new]
    rfl
  refine ⟨store ++ [setField (setField d1 "_id" id) "_pw" (bcryptHash p1)],
    ?_, ?_, ?_, ?_⟩
  · simp [UserDatabase.createUser, hid, hp1, hfresh]
  · simp [UserDatabase.createUser, hid, hp2, hf]
  · simp [UserDatabase.checkPassword, hid, hp1, hf, lookupField_setField_self,
      bcryptCompare_hash_self]
  · intro hne
    simp [UserDatabase.checkPassword, hid, hp2, hf, lookupField_setField_self,
      bcryptCompare_hash_ne p2 p1 hne]

theorem duplicate_create_preserves_first_password_witness :
    ∃ store', UserDatabase.createUser [] "alice" "one" [("age", "30")]
        = .ok (.created, store') ∧
      UserDatabase.createUser store' "alice" "two" [("age", "31")]
        = .ok (.alreadyExists, store') ∧
      UserDatabase.checkPassword store' "alice" "one" = .ok .valid ∧
      ("two" ≠ "one" → UserDatabase.checkPassword store' "alice" "two" = .ok .invalid) :=
  duplicate_create_preserves_first_password [] "alice" "one" "two"
    [("age", "30")] [("age", "31")] (by decide) (by decide) (by decide) rfl

/-- C8: for an id absent from the store, checkPassword yields NotFound for any
password and getUser yields NotFound, and both the login and fetch-profile
handlers map this to a 404 response (the fetch-profile request presenting a
valid minted token). -/
theorem absent_id_not_found (authTimeout iat now : Nat) (store : List Doc)
    (id p a : String) (reqBody : Doc) (hid : id ≠ "") (hp : p ≠ "")
    (habs : findById store id = [])
    (hbody : (lookupField reqBody "pw").getD "" = p)
    (hfresh : now < iat + authTimeout) :
    UserDatabase.checkPassword store id p = .ok .notFound ∧
    UserDatabase.getUser store id = .ok .notFound ∧
    Server.logIn authTimeout now store id (some reqBody) =
      ⟨404, .statusInfo "ERROR_NOT_FOUND" ("user " ++ id ++ " not found")⟩ ∧
    Server.getUser authTimeout now store id
        (some ("Bearer ".toList ++ Server.createAuthToken authTimeout iat a)) =
      ⟨404, .statusInfo "ERROR_NOT_FOUND" ("user " ++ id ++ " not found")⟩ := by
  have hcp : UserDatabase.checkPassword store id p = .ok .notFound := by
    simp [UserDatabase.checkPassword, hid, hp, habs]
  have hgu : UserDatabase.getUser store id = .ok .notFound := by
    simp [UserDatabase.getUser, hid, habs]
  refine ⟨hcp, hgu, ?_, ?_⟩
  · simp [Server.logIn, hid, hbody, hp, hcp]
  · rw [getUser_bearer_minted authTimeout iat now a id store hid]
    simp [Server.getUserAfterAuth, checkAuthToken_minted authTimeout iat now a hfresh, hgu]

theorem absent_id_not_found_witness :
    UserDatabase.checkPassword [] "ghost" "pw" = .ok .notFound ∧
    UserDatabase.getUser [] "ghost" = .ok .notFound ∧
    Server.logIn 10 5 [] "ghost" (some [("pw", "pw")]) =
      ⟨404, .statusInfo "ERROR_NOT_FOUND" ("user " ++ "ghost" ++ " not found")⟩ ∧
    Server.getUser 10 5 [] "ghost"
        (some ("Bearer ".toList ++ Server.createAuthToken 10 0 "bob")) =
      ⟨404, .statusInfo "ERROR_NOT_FOUND" ("user " ++ "ghost" ++ " not found")⟩ :=
  absent_id_not_found 10 0 5 [] "ghost" "pw" "bob" [("pw", "pw")]
    (by decide) (by decide) rfl (by decide) (by decide)

/-- C9: when more than one record exists for an id, createUser, checkPassword
and getUser all reject with the integrity error (no write), and the
create-account handler maps the rejection to a 500 response, leaving the
store unchanged. -/
theorem duplicate_records_integrity_error (authTimeout now : Nat) (store : List Doc)
    (id p : String) (data : Doc) (hid : id ≠ "") (hp : p ≠ "")
    (hmulti : 2 ≤ (findById store id).length) :
    UserDatabase.createUser store id p data =
      .error ("Multiple docs found for user with id " ++ id) ∧
    UserDatabase.checkPassword store id p =
      .error ("Multiple docs found for user with id " ++ id) ∧
    UserDatabase.getUser store id =
      .error ("Multiple docs found for user with id " ++ id) ∧
    Server.createUser authTimeout now store id (some p) (some data) =
      (internalErrorResp, store) := by
  obtain ⟨x, rest, hx⟩ : ∃ x rest, findById store id = x :: rest := by
    cases h : findById store id with
    | nil =>
      rw [h] at hmulti
      simp at hmulti
    | cons x r => exact ⟨x, r, rfl⟩
  obtain ⟨y, rest2, hy⟩ : ∃ y rest2, rest = y :: rest2 := by
    cases h2 : rest with
    | nil =>
      rw [h2] at hx
      rw [hx] at hmulti
      simp at hmulti
    | cons y r => exact ⟨y, r, rfl⟩
  subst hy
  have hc : UserDatabase.createUser store id p data =
      .error ("Multiple docs found for user with id " ++ id) := by
    simp [UserDatabase.createUser, hid, hp, hx]
  refine ⟨hc, ?_, ?_, ?_⟩
  · simp [UserDatabase.checkPassword, hid, hp, hx]
  · simp [UserDatabase.getUser, hid, hx]
  · simp [Server.createUser, hid, hp, hc]

theorem duplicate_records_integrity_error_witness :
    UserDatabase.createUser [[("_id", "a")], [("_id", "a")]] "a" "pw" [] =
      .error ("Multiple docs found for user with id " ++ "a") ∧
    UserDatabase.checkPassword [[("_id", "a")], [("_id", "a")]] "a" "pw" =
      .error ("Multiple docs found for user with id " ++ "a") ∧
    UserDatabase.getUser [[("_id", "a")], [("_id", "a")]] "a" =
      .error ("Multiple docs found for user with id " ++ "a") ∧
    Server.createUser 10 0 [[("_id", "a")], [("_id", "a")]] "a" (some "pw") (some []) =
      (internalErrorResp, [[("_id", "a")], [("_id", "a")]]) :=
  duplicate_records_integrity_error 10 0 [[("_id", "a")], [("_id", "a")]]
    "a" "pw" [] (by decide) (by decide) (by decide)

/-- C7: a fetch-profile request whose Authorization header is absent or empty,
whose scheme does not lowercase to "bearer", whose token slot is empty, whose
token is signed with a wrong secret, whose token does not parse, or whose
token otherwise fails verification, is answered 401 (never 500): every
verification failure is caught inside checkAuthToken and mapped to false. -/
theorem auth_failure_yields_unauthorized (authTimeout now : Nat) (store : List Doc)
    (id : String) (authHeader : Option (List Char)) (hid : id ≠ "")
    (hfail : authHeader = none ∨ ∃ v, authHeader = some v ∧
      (v = [] ∨
       toLowerL ((splitChar ' ' v).getD 0 []) ≠ "bearer".toList ∨
       (splitChar ' ' v).getD 1 [] = [] ∨
       (∃ p s iat expiry, (splitChar ' ' v).getD 1 [] = jwtSignL p s iat expiry ∧
         s ≠ authSecret.toList) ∨
       skipPayload ((splitChar ' ' v).getD 1 []) = none ∨
       Server.checkAuthToken authTimeout now ((splitChar ' ' v).getD 1 []) = false)) :
    Server.getUser authTimeout now store id authHeader =
      ⟨401, .statusInfo "ERROR_UNAUTHORIZED"
        ("/users/" ++ id ++ " requires a bearer authorization header")⟩ := by
  rcases hfail with hnone | ⟨v, hv, hcase⟩
  · subst hnone
    rw [Server.getUser]
    simp only [if_neg hid]
  · subst hv
    rw [Server.getUser]
    simp only [if_neg hid]
    by_cases hempty : v = []
    · simp only [if_pos hempty]
    · simp only [if_neg hempty]
      by_cases hcond : toLowerL ((splitChar ' ' v).getD 0 []) ≠ "bearer".toList ∨
          (splitChar ' ' v).getD 1 [] = []
      · simp only [if_pos hcond]
      · simp only [if_neg hcond]
        have hca : Server.checkAuthToken authTimeout now
            ((splitChar ' ' v).getD 1 []) = false := by
          rcases hcase with h | h | h | h | h | h
          · exact absurd h hempty
          · exact absurd (Or.inl h) hcond
          · exact absurd (Or.inr h) hcond
          · obtain ⟨p, s, iat, expiry, heq, hs⟩ := h
            rw [heq, Server.checkAuthToken, jwtVerifyL_jwtSignL]
            have hss : ¬(strEnc s = strEnc authSecret.toList) :=
              fun e => hs (strEnc_injective e)
            rw [decide_eq_false hss, Bool.false_and, Bool.false_and]
          · simp only [Server.checkAuthToken, jwtVerifyL, h]
          · exact h
        rw [Server.getUserAfterAuth, hca]
        simp

theorem auth_failure_yields_unauthorized_witness :
    Server.getUser 10 0 [] "a" none =
      ⟨401, .statusInfo "ERROR_UNAUTHORIZED"
        ("/users/" ++ "a" ++ " requires a bearer authorization header")⟩ :=
  auth_failure_yields_unauthorized 10 0 [] "a" none (by decide) (Or.inl rfl)

/-- C3 (divergent behavior at the failing input): a create-account request
for id "alice" with NO pw query parameter and an (empty-object) body is not
answered 400: `decodeURIComponent(req.query.pw)` coerces the absent value to
the truthy string "undefined", the guard passes, and a user is created
(status 201) with password "undefined". -/
theorem missing_password_creates_user :
    (Server.createUser 10 0 [] "alice" none (some [("age", "30")])).1.status = 201 ∧
    (Server.createUser 10 0 [] "alice" none (some [("age", "30")])).2 =
      [setField (setField [("age", "30")] "_id" "alice") "_pw"
        (bcryptHash "undefined")] := by
  constructor
  · rfl
  · rfl
